import Mathlib

/-!
# LuminanceHDR: the Fattal02 tone-map operator, the Frame model and the I/O worker signals

Shallow embedding of

* `src/Threads/Fattal02Thread.cpp` (`TonemapOperatorFattal02::tonemapFrame`, `getType`,
  the static `m_Mutex`);
* `src/Libpfs/frame.h` (the `Frame` interface and the `FrameImpl` declaration);
* `src/Core/IOWorker.h` (the signal declarations of `IOWorker`).
-/

namespace LuminanceHDR

/-! ## Part 1. Fattal02Thread.cpp -/

/-- Modelled from the spec: the enumeration `TMOperator` is declared in
Core/TonemappingOptions.h, which is not among the sources.  The code names only the
enumerator `fattal`; every other enumerator is kept as `other k`. -/
inductive TMOperator where
  | fattal
  | other (k : Nat)
  deriving DecidableEq

/-- Modelled from the spec: the record behind `opts->operator_options.fattaloptions`
(Core/TonemappingOptions.h, not among the sources).  The fields are exactly the five that
`tonemapFrame` reads; `R` stands for the floating-point type of the numeric parameters,
which `tonemapFrame` only copies. -/
structure FattalOptions (R : Type) where
  alpha : R
  beta : R
  color : R
  noiseredux : R
  newfattal : Bool
  deriving DecidableEq

/-- Modelled from the spec: the member `operator_options` of `TonemappingOptions`
(Core/TonemappingOptions.h, not among the sources), restricted to the member the code
reads. -/
structure OperatorOptions (R : Type) where
  fattaloptions : FattalOptions R
  deriving DecidableEq

/-- Modelled from the spec: `TonemappingOptions` (Core/TonemappingOptions.h, not among
the sources), restricted to the access path `operator_options.fattaloptions` used by
`tonemapFrame`. -/
structure TonemappingOptions (R : Type) where
  operator_options : OperatorOptions R
  deriving DecidableEq

/-- A `pfs::Frame*`: the address of a frame. -/
abbrev FramePtr := Nat

/-- A `TonemappingOptions*`: the address of an options record. -/
abbrev OptsPtr := Nat

/-- A `ProgressHelper*`: the address of a progress helper; `NULL` is `none` of
`Option ProgressPtr`. -/
abbrev ProgressPtr := Nat

/-- The argument list of one call of `pfstmo_fattal02`, in the order of lines 46-52. -/
structure PfstmoArgs (R : Type) where
  frame : FramePtr
  alpha : R
  beta : R
  color : R
  noiseredux : R
  newfattal : Bool
  ph : Option ProgressPtr
  deriving DecidableEq

/-- A C++ exception in flight, identified by its message. -/
structure CppException where
  what : String
  deriving DecidableEq

/-- How a call of the external `pfstmo_fattal02` ends: it returns, or it throws.  In both
cases it may have changed the state `σ` it works on (frames, solver scratch state). -/
inductive Completion (σ : Type) where
  | normal (s : σ)
  | thrown (e : CppException) (s : σ)

/-- Observable events of `tonemapFrame`.  `tmo_error` is the signal of the disabled
handler (line 58, inside the commented-out `catch`). -/
inductive Event (R : Type) where
  | lock
  | unlock
  | pfstmo_fattal02 (args : PfstmoArgs R)
  | tmo_error (message : String)
  deriving DecidableEq

/-- The program state `tonemapFrame` runs in: the static `QMutex m_Mutex` (line 32, one
object for the whole class, `true` when locked), the options records in memory, the state
`σ` of everything `pfstmo_fattal02` operates on, and the events so far. -/
structure World (σ R : Type) where
  m_Mutex : Bool
  options : OptsPtr → TonemappingOptions R
  ext : σ
  trace : List (Event R)

/-- An operator object.  The class adds no data member in this file; `addr` is the
identity of the instance. -/
structure TonemapOperatorFattal02 where
  addr : Nat
  deriving DecidableEq

/-- How a call of `tonemapFrame` ends: it returns (line 64), an exception leaves it, or it
never gets past `m_Mutex.lock()` because the mutex stays locked. -/
inductive Outcome where
  | returned
  | escaped (e : CppException)
  | blocked
  deriving DecidableEq

/-- The call `m_Mutex.lock()` of a non-recursive `QMutex` when nobody else runs: on a free
mutex it takes it, on a locked mutex it does not return (`none`). -/
def QMutex.lock {σ R : Type} (w : World σ R) : Option (World σ R) :=
  if w.m_Mutex then none
  else some { w with m_Mutex := true, trace := w.trace ++ [Event.lock] }

/-- The call `m_Mutex.unlock()`: the mutex is free afterwards. -/
def QMutex.unlock {σ R : Type} (w : World σ R) : World σ R :=
  { w with m_Mutex := false, trace := w.trace ++ [Event.unlock] }

/-- The argument list built at lines 46-52 from the frame pointer and the options record. -/
def fattalArgs {R : Type} (workingframe : FramePtr) (o : TonemappingOptions R) : PfstmoArgs R :=
  { frame := workingframe
    alpha := o.operator_options.fattaloptions.alpha
    beta := o.operator_options.fattaloptions.beta
    color := o.operator_options.fattaloptions.color
    noiseredux := o.operator_options.fattaloptions.noiseredux
    newfattal := o.operator_options.fattaloptions.newfattal
    ph := none }

/-- The method `TonemapOperatorFattal02::tonemapFrame` (lines 38-64).  The external
`pfstmo_fattal02` is the parameter `pfstmo`: it is applied to the argument list and to the
program state at line 46, which it can observe (the mutex included), and it yields the new
external state.  The `try`/`catch` of lines 42-61 is commented out in the source, so an
exception thrown by `pfstmo_fattal02` leaves the method at line 46 and line 53 is not
executed. -/
def TonemapOperatorFattal02.tonemapFrame {σ R : Type}
    (pfstmo : PfstmoArgs R → World σ R → Completion σ)
    (_self : TonemapOperatorFattal02) (workingframe : FramePtr) (opts : OptsPtr)
    (w : World σ R) : Outcome × World σ R :=
  match QMutex.lock w with
  | none => (Outcome.blocked, w)
  | some w1 =>
    let args := fattalArgs workingframe (w1.options opts)
    let w2 := { w1 with trace := w1.trace ++ [Event.pfstmo_fattal02 args] }
    match pfstmo args w2 with
    | Completion.thrown e s => (Outcome.escaped e, { w2 with ext := s })
    | Completion.normal s => (Outcome.returned, QMutex.unlock { w2 with ext := s })

/-- The method `TonemapOperatorFattal02::getType` (lines 66-69): it returns the constant
`fattal` and touches nothing. -/
def TonemapOperatorFattal02.getType {σ R : Type}
    (_self : TonemapOperatorFattal02) (w : World σ R) : TMOperator × World σ R :=
  (TMOperator.fattal, w)

/-- One call of `tonemapFrame` in a sequence of calls made one after the other. -/
structure TonemapCall where
  self : TonemapOperatorFattal02
  workingframe : FramePtr
  opts : OptsPtr

/-- Runs calls of `tonemapFrame` one after the other; a call that blocks is the last one
that does anything. -/
def runCalls {σ R : Type} (pfstmo : PfstmoArgs R → World σ R → Completion σ) :
    List TonemapCall → World σ R → World σ R
  | [], w => w
  | c :: cs, w =>
    match c.self.tonemapFrame pfstmo c.workingframe c.opts w with
    | (Outcome.blocked, w1) => w1
    | (_, w1) => runCalls pfstmo cs w1

/-- The arguments of the `pfstmo_fattal02` calls recorded in a trace, in order. -/
def pfstmoCalls {R : Type} : List (Event R) → List (PfstmoArgs R)
  | [] => []
  | Event.pfstmo_fattal02 a :: es => a :: pfstmoCalls es
  | _ :: es => pfstmoCalls es

/-- Number of `lock` events in a trace. -/
def lockCount {R : Type} : List (Event R) → Nat
  | [] => 0
  | Event.lock :: es => lockCount es + 1
  | _ :: es => lockCount es

/-- Number of `unlock` events in a trace. -/
def unlockCount {R : Type} : List (Event R) → Nat
  | [] => 0
  | Event.unlock :: es => unlockCount es + 1
  | _ :: es => unlockCount es

/-- Whether a trace holds a `tmo_error` event. -/
def hasTmoError {R : Type} : List (Event R) → Bool
  | [] => false
  | Event.tmo_error _ :: _ => true
  | _ :: es => hasTmoError es

/-- The events a call added to the trace. -/
def eventsSince {σ R : Type} (w : World σ R) (r : Outcome × World σ R) : List (Event R) :=
  r.2.trace.drop w.trace.length

/-- A sample operator instance. -/
def sampleOp : TonemapOperatorFattal02 := { addr := 1 }

/-- A sample options record: alpha 1, beta 2, color 3, noiseredux 4, newfattal set. -/
def sampleOptions : TonemappingOptions Int :=
  { operator_options :=
      { fattaloptions := { alpha := 1, beta := 2, color := 3, noiseredux := 4, newfattal := true } } }

/-- The program state in which `pfstmo_fattal02` runs when `tonemapFrame` is called in state
`w` with the mutex free: `m_Mutex` is locked, and the trace holds the lock and the call. -/
def stateInBody {σ R : Type} (workingframe : FramePtr) (opts : OptsPtr) (w : World σ R) :
    World σ R :=
  { m_Mutex := true, options := w.options, ext := w.ext,
    trace := w.trace ++ [Event.lock,
      Event.pfstmo_fattal02 (fattalArgs workingframe (w.options opts))] }

/-- What a recording `pfstmo_fattal02` notes at each invocation: the arguments it was called
with and whether `m_Mutex` was locked at that moment. -/
abbrev Invocations := List (PfstmoArgs Int × Bool)

/-- A sample state: the mutex is free, every options pointer leads to `sampleOptions`, no
invocation of `pfstmo_fattal02` has been recorded and nothing has happened yet. -/
def sampleWorld : World Invocations Int :=
  { m_Mutex := false, options := fun _ => sampleOptions, ext := [], trace := [] }

/-- A sample `pfstmo_fattal02` that records its invocation and returns normally. -/
def pfstmoReturns : PfstmoArgs Int → World Invocations Int → Completion Invocations :=
  fun a w => Completion.normal (w.ext ++ [(a, w.m_Mutex)])

/-- A sample `pfstmo_fattal02` that records its invocation and fails by throwing. -/
def pfstmoThrows : PfstmoArgs Int → World Invocations Int → Completion Invocations :=
  fun a w => Completion.thrown { what := "pfstmo_fattal02 failed" } (w.ext ++ [(a, w.m_Mutex)])

/-- The state after a sample call in which `pfstmo_fattal02` threw. -/
def worldAfterThrow : World Invocations Int :=
  (sampleOp.tonemapFrame pfstmoThrows 7 0 sampleWorld).2

/-! ### Concurrent calls

Several threads execute `tonemapFrame` at once.  A thread is at one of the statements of
the method body; the only shared object the method touches is the static `m_Mutex`. -/

/-- A thread identifier. -/
abbrev Tid := Nat

/-- Where a thread stands with respect to `tonemapFrame`: not in a call, about to execute
`m_Mutex.lock()` (line 45), inside `pfstmo_fattal02` (lines 46-52), or about to execute
`m_Mutex.unlock()` (line 53). -/
inductive PC where
  | idle
  | atLock
  | inBody
  | atUnlock
  deriving DecidableEq

/-- State of the concurrent system: the static mutex and the position of every thread. -/
structure Conc where
  m_Mutex : Bool
  pc : Tid → PC

/-- Atomic steps of the threads.  `call` enters `tonemapFrame` on some operator instance and
frame; `lock` completes `m_Mutex.lock()`, which is only possible while the mutex is free;
`bodyReturns` and `bodyThrows` are the two ways `pfstmo_fattal02` ends; `unlock` is line 53
followed by the return. -/
inductive Action where
  | call (t : Tid) (self : TonemapOperatorFattal02) (workingframe : FramePtr)
  | lock (t : Tid)
  | bodyReturns (t : Tid)
  | bodyThrows (t : Tid)
  | unlock (t : Tid)

/-- Sets the position of thread `t`. -/
def Conc.setPC (s : Conc) (t : Tid) (p : PC) : Conc :=
  { s with pc := fun u => if u = t then p else s.pc u }

/-- One atomic step.  A step that is not enabled (wrong position, or `lock` on a locked
mutex) leaves the state as it is: the thread waits. -/
def Conc.step (s : Conc) : Action → Conc
  | Action.call t _ _ => if s.pc t = PC.idle then s.setPC t PC.atLock else s
  | Action.lock t =>
    if s.pc t = PC.atLock ∧ s.m_Mutex = false then
      { (s.setPC t PC.inBody) with m_Mutex := true }
    else s
  | Action.bodyReturns t => if s.pc t = PC.inBody then s.setPC t PC.atUnlock else s
  | Action.bodyThrows t => if s.pc t = PC.inBody then s.setPC t PC.idle else s
  | Action.unlock t =>
    if s.pc t = PC.atUnlock then { (s.setPC t PC.idle) with m_Mutex := false } else s

/-- The state at program start: the mutex is free and no thread is in a call. -/
def Conc.init : Conc :=
  { m_Mutex := false, pc := fun _ => PC.idle }

/-- The state after a schedule of atomic steps. -/
def Conc.run (s : Conc) (acts : List Action) : Conc :=
  acts.foldl Conc.step s

/-- A thread is in the critical region when it has taken the mutex and not yet released it. -/
def PC.holds : PC → Bool
  | PC.inBody => true
  | PC.atUnlock => true
  | _ => false

/-- The invariant of the lock discipline: threads in the critical region are all the same
thread, and while the mutex is free no thread is in the critical region. -/
def Conc.Inv (s : Conc) : Prop :=
  (∀ t u, (s.pc t).holds = true → (s.pc u).holds = true → t = u) ∧
  (s.m_Mutex = false → ∀ t, (s.pc t).holds = false)

/-- A sample schedule: threads 0 and 1 both call `tonemapFrame` (on two instances and two
frames); thread 0 gets the mutex, thread 1 tries and waits; thread 0 finishes; thread 1 gets
the mutex and is inside the body. -/
def sampleSchedule : List Action :=
  [ Action.call 0 { addr := 1 } 7, Action.call 1 { addr := 2 } 8,
    Action.lock 0, Action.lock 1, Action.bodyReturns 0, Action.lock 1,
    Action.unlock 0, Action.lock 1 ]

/-! ## Part 2. Libpfs/frame.h

The header declares the interface `Frame` and the class `FrameImpl`; the bodies of the
member functions (frame.cpp) and the class `Channel` (channel.h) are not among the sources. -/

namespace pfs

/-- Modelled from the spec: `Channel` (channel.h is not among the sources).  A channel
stores its own width and height, copied from the frame at construction (spec, section 9),
and has a name; `addr` is the identity of the object behind a `Channel*`. -/
structure Channel where
  addr : Nat
  name : String
  width : Int
  height : Int
  deriving DecidableEq

/-- Modelled from the spec: the data members of `FrameImpl` declared at lines 164-172 that
the frame operations use: `width`, `height` and the `ChannelMap channel`, kept as the list
of bindings from name to channel in insertion order (spec, section 4.2).  The type
`ChannelMap` (channel.h) is not among the sources.  `fresh` is the next address the
allocator hands out. -/
structure FrameImpl where
  width : Int
  height : Int
  channel : List (String × Channel)
  fresh : Nat
  deriving DecidableEq

/-- Modelled from the spec: the body of the constructor `FrameImpl(int width, int height)`
is not among the sources.  A new frame has the given size and no channel. -/
def FrameImpl.new (width height : Int) : FrameImpl :=
  { width := width, height := height, channel := [], fresh := 0 }

/-- Modelled from the spec: the body of `FrameImpl::getWidth` is not among the sources;
"`width()`, `height()` - constants after construction". -/
def FrameImpl.getWidth (F : FrameImpl) : Int := F.width

/-- Modelled from the spec: the body of `FrameImpl::getHeight` is not among the sources;
"`width()`, `height()` - constants after construction". -/
def FrameImpl.getHeight (F : FrameImpl) : Int := F.height

/-- Modelled from the spec: the body of `FrameImpl::getChannel` is not among the sources;
"returns the channel bound to `name` or ⊥ if absent.  Never fails."  `NULL` is `none`. -/
def FrameImpl.getChannel (F : FrameImpl) (name : String) : Option Channel :=
  (F.channel.find? (fun e => decide (e.1 = name))).map Prod.snd

/-- Whether a channel name is one of the tristimulus names. -/
def isXYZ (name : String) : Bool :=
  decide (name = "X") || decide (name = "Y") || decide (name = "Z")

/-- Modelled from the spec: the allocation of "a fresh W×H channel" and its binding under
`name` (frame.cpp is not among the sources).  The result is the new channel and the frame
afterwards. -/
def FrameImpl.bindNew (F : FrameImpl) (name : String) : Channel × FrameImpl :=
  let ch : Channel := { addr := F.fresh, name := name, width := F.width, height := F.height }
  (ch, { F with channel := F.channel ++ [(name, ch)], fresh := F.fresh + 1 })

/-- Modelled from the spec: binds a fresh channel under `name` unless the name is bound
(frame.cpp is not among the sources). -/
def FrameImpl.bindIfAbsent (F : FrameImpl) (name : String) : FrameImpl :=
  match F.getChannel name with
  | some _ => F
  | none => (F.bindNew name).2

/-- Modelled from the spec: the body of `FrameImpl::createChannel` is not among the sources;
"returns the existing channel if `name` is bound; otherwise allocates a fresh W×H channel
and binds it."  The all-or-none rule of X, Y, Z being "a core invariant enforced on every
modification", a new channel named X, Y or Z is bound together with those of the triple
that are missing.  The result is the returned channel and the frame afterwards. -/
def FrameImpl.createChannel (F : FrameImpl) (name : String) : Channel × FrameImpl :=
  match F.getChannel name with
  | some ch => (ch, F)
  | none =>
    let r := F.bindNew name
    if isXYZ name then
      (r.1, ((r.2.bindIfAbsent "X").bindIfAbsent "Y").bindIfAbsent "Z")
    else r

/-- Modelled from the spec: the body of `FrameImpl::getXYZChannels` is not among the
sources; "returns the three tristimulus channels together, or all three as ⊥ if any is
absent".  The result is the values stored in `X`, `Y`, `Z`. -/
def FrameImpl.getXYZChannels (F : FrameImpl) :
    Option Channel × Option Channel × Option Channel :=
  match F.getChannel "X", F.getChannel "Y", F.getChannel "Z" with
  | some x, some y, some z => (some x, some y, some z)
  | _, _, _ => (none, none, none)

/-- Modelled from the spec: the body of `FrameImpl::createXYZChannels` is not among the
sources; "idempotent triple-create": each of X, Y, Z is created unless it exists.  The result
is the values stored in `X`, `Y`, `Z` and the frame afterwards. -/
def FrameImpl.createXYZChannels (F : FrameImpl) : (Channel × Channel × Channel) × FrameImpl :=
  let rx := F.createChannel "X"
  let ry := rx.2.createChannel "Y"
  let rz := ry.2.createChannel "Z"
  ((rx.1, ry.1, rz.1), rz.2)

/-- The two behaviours the spec allows for `remove_channel` on one of X, Y, Z: remove the
whole triple, or fail the operation. -/
inductive XYZPolicy where
  | removeTriple
  | failOperation
  deriving DecidableEq

/-- Failure kinds of the frame operations (spec, section 7). -/
inductive FrameError where
  | invariant_violation
  deriving DecidableEq

/-- Modelled from the spec: the body of `FrameImpl::removeChannel` is not among the sources;
"unbinds and destroys `ch`", and "`remove_channel` on one of X, Y, Z must either
atomically remove the other two or fail the operation".  Which of the two an implementation
does is the parameter `p`.  A channel that is not bound in the frame leaves it as it is. -/
def FrameImpl.removeChannel (p : XYZPolicy) (F : FrameImpl) (ch : Channel) :
    Except FrameError FrameImpl :=
  if F.getChannel ch.name = some ch then
    if isXYZ ch.name then
      match p with
      | XYZPolicy.removeTriple =>
        Except.ok { F with channel := F.channel.filter (fun e => !isXYZ e.1) }
      | XYZPolicy.failOperation => Except.error FrameError.invariant_violation
    else
      Except.ok { F with channel := F.channel.filter (fun e => !decide (e.1 = ch.name)) }
  else
    Except.ok F

/-- The mutating operations of a frame named by the invariants. -/
inductive FrameOp where
  | createChannel (name : String)
  | createXYZChannels
  | removeChannel (ch : Channel)

/-- The frame after one operation; a failed operation leaves the frame as it was. -/
def FrameImpl.apply (p : XYZPolicy) (F : FrameImpl) : FrameOp → FrameImpl
  | FrameOp.createChannel name => (F.createChannel name).2
  | FrameOp.createXYZChannels => F.createXYZChannels.2
  | FrameOp.removeChannel ch =>
    match F.removeChannel p ch with
    | Except.ok F1 => F1
    | Except.error _ => F

/-- The frame after a sequence of operations. -/
def FrameImpl.run (p : XYZPolicy) (F : FrameImpl) (ops : List FrameOp) : FrameImpl :=
  ops.foldl (FrameImpl.apply p) F

/-- How many of the names X, Y, Z are bound to a channel. -/
def FrameImpl.xyzCount (F : FrameImpl) : Nat :=
  (["X", "Y", "Z"].filter (fun n => (F.getChannel n).isSome)).length

/-- Whether a name is bound to a channel in the frame. -/
def FrameImpl.bound (F : FrameImpl) (name : String) : Bool :=
  (F.getChannel name).isSome

/-- The frame has size `W`×`H` and so has every channel it contains. -/
def FrameImpl.SizeOK (W H : Int) (F : FrameImpl) : Prop :=
  F.getWidth = W ∧ F.getHeight = H ∧ ∀ e ∈ F.channel, e.2.width = W ∧ e.2.height = H

end pfs

/-! ## Part 3. Core/IOWorker.h -/

/-- Parameter types that occur in the signal declarations of `IOWorker`. -/
inductive ParamType where
  | QString
  | FramePtr
  | HdrViewerPtr
  | LdrViewerPtr
  | int
  deriving DecidableEq

/-- A signal declaration: its name and the types of its parameters, in order. -/
structure SignalDecl where
  name : String
  params : List ParamType
  deriving DecidableEq

/-- The `signals:` section of `class IOWorker` (lines 76-90), declaration by declaration. -/
def IOWorker.signals : List SignalDecl :=
  [ { name := "read_hdr_failed", params := [ParamType.QString] },
    { name := "read_hdr_success", params := [ParamType.FramePtr, ParamType.QString] },
    { name := "write_hdr_failed", params := [] },
    { name := "write_hdr_success", params := [ParamType.FramePtr, ParamType.QString] },
    { name := "write_hdr_success", params := [ParamType.HdrViewerPtr, ParamType.QString] },
    { name := "write_ldr_failed", params := [] },
    { name := "write_ldr_success", params := [ParamType.LdrViewerPtr, ParamType.QString] },
    { name := "setMaximum", params := [ParamType.int] },
    { name := "setValue", params := [ParamType.int] },
    { name := "IO_init", params := [] },
    { name := "IO_finish", params := [] } ]

/-- Whether a parameter type is a reference to a frame or to a view. -/
def ParamType.isFrameOrView : ParamType → Bool
  | ParamType.FramePtr => true
  | ParamType.HdrViewerPtr => true
  | ParamType.LdrViewerPtr => true
  | _ => false

/-- The success events of the I/O operations. -/
def SignalDecl.isSuccess (d : SignalDecl) : Bool :=
  decide (d.name ∈ ["read_hdr_success", "write_hdr_success", "write_ldr_success"])

/-- The failure events of the I/O operations. -/
def SignalDecl.isFailure (d : SignalDecl) : Bool :=
  decide (d.name ∈ ["read_hdr_failed", "write_hdr_failed", "write_ldr_failed"])

/-- The signal carries a reference to a frame or view. -/
def SignalDecl.carriesFrameOrView (d : SignalDecl) : Bool :=
  d.params.any ParamType.isFrameOrView

/-- The signal carries a string (a path, or a reason). -/
def SignalDecl.carriesString (d : SignalDecl) : Bool :=
  d.params.any (fun t => decide (t = ParamType.QString))

/-! ## Theorems: the lock discipline of `tonemapFrame` -/

theorem lockCount_append {R : Type} (xs ys : List (Event R)) :
    lockCount (xs ++ ys) = lockCount xs + lockCount ys := by
  induction xs with
  | nil => simp [lockCount]
  | cons x xs ih =>
    cases x <;> simp [lockCount, ih]
    omega

theorem unlockCount_append {R : Type} (xs ys : List (Event R)) :
    unlockCount (xs ++ ys) = unlockCount xs + unlockCount ys := by
  induction xs with
  | nil => simp [unlockCount]
  | cons x xs ih =>
    cases x <;> simp [unlockCount, ih]
    omega

theorem pfstmoCalls_append {R : Type} (xs ys : List (Event R)) :
    pfstmoCalls (xs ++ ys) = pfstmoCalls xs ++ pfstmoCalls ys := by
  induction xs with
  | nil => simp [pfstmoCalls]
  | cons x xs ih => cases x <;> simp [pfstmoCalls, ih]

/-- What `tonemapFrame` does on a free mutex, by the way `pfstmo_fattal02` ends. -/
theorem tonemapFrame_unfold {σ R : Type} (pfstmo : PfstmoArgs R → World σ R → Completion σ)
    (self : TonemapOperatorFattal02) (f : FramePtr) (opts : OptsPtr) (w : World σ R)
    (h : w.m_Mutex = false) :
    self.tonemapFrame pfstmo f opts w =
      match pfstmo (fattalArgs f (w.options opts)) (stateInBody f opts w) with
      | Completion.thrown e s =>
        (Outcome.escaped e,
          { m_Mutex := true, options := w.options, ext := s,
            trace := w.trace ++ [Event.lock,
              Event.pfstmo_fattal02 (fattalArgs f (w.options opts))] })
      | Completion.normal s =>
        (Outcome.returned,
          { m_Mutex := false, options := w.options, ext := s,
            trace := w.trace ++ [Event.lock,
              Event.pfstmo_fattal02 (fattalArgs f (w.options opts)), Event.unlock] }) := by
  simp only [TonemapOperatorFattal02.tonemapFrame, QMutex.lock, h, QMutex.unlock,
    Bool.false_eq_true, if_false, stateInBody, List.append_assoc, List.singleton_append,
    List.cons_append, List.nil_append]

/-- On a locked mutex `tonemapFrame` does not get past line 45. -/
theorem tonemapFrame_blocked {σ R : Type} (pfstmo : PfstmoArgs R → World σ R → Completion σ)
    (self : TonemapOperatorFattal02) (f : FramePtr) (opts : OptsPtr) (w : World σ R)
    (h : w.m_Mutex = true) :
    self.tonemapFrame pfstmo f opts w = (Outcome.blocked, w) := by
  simp [TonemapOperatorFattal02.tonemapFrame, QMutex.lock, h]

/-- C2: for every operator instance, every call of `tonemapFrame` that reaches
`pfstmo_fattal02` (the mutex is free at the call) and in which `pfstmo_fattal02` returns
normally does the following: `pfstmo_fattal02` runs in a state in which the static
`m_Mutex` is locked; the call returns; the events of the call are exactly `lock`, the call
of `pfstmo_fattal02`, `unlock`, in this order, hence one lock before the body and one
unlock after it; the external state is the one `pfstmo_fattal02` produced; and `m_Mutex`
is free when `tonemapFrame` returns. -/
theorem tonemapFrame_holds_mutex_around_body {σ R : Type}
    (pfstmo : PfstmoArgs R → World σ R → Completion σ)
    (self : TonemapOperatorFattal02) (f : FramePtr) (opts : OptsPtr) (w : World σ R) (s : σ)
    (hfree : w.m_Mutex = false)
    (hret : pfstmo (fattalArgs f (w.options opts)) (stateInBody f opts w) =
      Completion.normal s) :
    (stateInBody f opts w).m_Mutex = true ∧
    (self.tonemapFrame pfstmo f opts w).1 = Outcome.returned ∧
    (self.tonemapFrame pfstmo f opts w).2.trace =
      w.trace ++ [Event.lock, Event.pfstmo_fattal02 (fattalArgs f (w.options opts)),
        Event.unlock] ∧
    lockCount (eventsSince w (self.tonemapFrame pfstmo f opts w)) = 1 ∧
    unlockCount (eventsSince w (self.tonemapFrame pfstmo f opts w)) = 1 ∧
    (self.tonemapFrame pfstmo f opts w).2.ext = s ∧
    (self.tonemapFrame pfstmo f opts w).2.m_Mutex = false := by
  rw [tonemapFrame_unfold pfstmo self f opts w hfree, hret]
  simp [eventsSince, lockCount, unlockCount, stateInBody]

/-- A sample call on a free mutex whose body returns normally: the recording body was
invoked once, with the mutex locked. -/
theorem tonemapFrame_holds_mutex_around_body_witness :
    sampleWorld.m_Mutex = false ∧
    pfstmoReturns (fattalArgs 7 (sampleWorld.options 0)) (stateInBody 7 0 sampleWorld) =
      Completion.normal [(fattalArgs 7 sampleOptions, true)] ∧
    ((stateInBody 7 0 sampleWorld).m_Mutex = true ∧
    (sampleOp.tonemapFrame pfstmoReturns 7 0 sampleWorld).1 = Outcome.returned ∧
    (sampleOp.tonemapFrame pfstmoReturns 7 0 sampleWorld).2.trace =
      sampleWorld.trace ++ [Event.lock,
        Event.pfstmo_fattal02 (fattalArgs 7 (sampleWorld.options 0)), Event.unlock] ∧
    lockCount (eventsSince sampleWorld (sampleOp.tonemapFrame pfstmoReturns 7 0 sampleWorld)) = 1 ∧
    unlockCount (eventsSince sampleWorld (sampleOp.tonemapFrame pfstmoReturns 7 0 sampleWorld)) = 1 ∧
    (sampleOp.tonemapFrame pfstmoReturns 7 0 sampleWorld).2.ext =
      [(fattalArgs 7 sampleOptions, true)] ∧
    (sampleOp.tonemapFrame pfstmoReturns 7 0 sampleWorld).2.m_Mutex = false) :=
  ⟨rfl, rfl, tonemapFrame_holds_mutex_around_body pfstmoReturns sampleOp 7 0 sampleWorld
    [(fattalArgs 7 sampleOptions, true)] rfl rfl⟩

/-- C3 (the code at the failing input): when `pfstmo_fattal02` throws, the call of
`tonemapFrame` ends with the exception and with `m_Mutex` still locked, no `unlock` has
happened, and the next call of `tonemapFrame` (on any instance) does not get past
`m_Mutex.lock()`. -/
theorem tonemapFrame_throw_leaves_mutex_locked :
    (sampleOp.tonemapFrame pfstmoThrows 7 0 sampleWorld).1 =
      Outcome.escaped { what := "pfstmo_fattal02 failed" } ∧
    (sampleOp.tonemapFrame pfstmoThrows 7 0 sampleWorld).2.m_Mutex = true ∧
    unlockCount (sampleOp.tonemapFrame pfstmoThrows 7 0 sampleWorld).2.trace = 0 ∧
    (TonemapOperatorFattal02.tonemapFrame pfstmoReturns { addr := 2 } 8 0
      (sampleOp.tonemapFrame pfstmoThrows 7 0 sampleWorld).2).1 = Outcome.blocked :=
  ⟨rfl, rfl, rfl, rfl⟩

/-- C4 (amended): when `pfstmo_fattal02` throws, the exception leaves `tonemapFrame`
unchanged, with the message it was thrown with, and the call emits no `tmo_error` event. -/
theorem tonemapFrame_failure_escapes_as_exception {σ R : Type}
    (pfstmo : PfstmoArgs R → World σ R → Completion σ)
    (self : TonemapOperatorFattal02) (f : FramePtr) (opts : OptsPtr) (w : World σ R)
    (e : CppException) (s : σ)
    (hfree : w.m_Mutex = false)
    (hthrow : pfstmo (fattalArgs f (w.options opts)) (stateInBody f opts w) =
      Completion.thrown e s) :
    (self.tonemapFrame pfstmo f opts w).1 = Outcome.escaped e ∧
    hasTmoError (eventsSince w (self.tonemapFrame pfstmo f opts w)) = false := by
  rw [tonemapFrame_unfold pfstmo self f opts w hfree, hthrow]
  simp [eventsSince, hasTmoError]

/-- A sample call on a free mutex whose body throws. -/
theorem tonemapFrame_failure_escapes_as_exception_witness :
    sampleWorld.m_Mutex = false ∧
    pfstmoThrows (fattalArgs 7 (sampleWorld.options 0)) (stateInBody 7 0 sampleWorld) =
      Completion.thrown { what := "pfstmo_fattal02 failed" }
        [(fattalArgs 7 sampleOptions, true)] ∧
    (sampleOp.tonemapFrame pfstmoThrows 7 0 sampleWorld).1 =
      Outcome.escaped { what := "pfstmo_fattal02 failed" } ∧
    hasTmoError (eventsSince sampleWorld (sampleOp.tonemapFrame pfstmoThrows 7 0 sampleWorld)) =
      false :=
  ⟨rfl, rfl, tonemapFrame_failure_escapes_as_exception pfstmoThrows sampleOp 7 0 sampleWorld
    { what := "pfstmo_fattal02 failed" } [(fattalArgs 7 sampleOptions, true)] rfl rfl⟩

/-- C4 (counterexample): a call in which `pfstmo_fattal02` throws ends with the exception
leaving `tonemapFrame`, and its trace holds no `tmo_error` event. -/
theorem tonemapFrame_failure_is_not_tmo_error :
    (sampleOp.tonemapFrame pfstmoThrows 7 0 sampleWorld).1 =
      Outcome.escaped { what := "pfstmo_fattal02 failed" } ∧
    hasTmoError (sampleOp.tonemapFrame pfstmoThrows 7 0 sampleWorld).2.trace = false :=
  ⟨rfl, rfl⟩

/-- C9: `getType` returns `fattal` for every instance in every state, in particular in the
state reached after any sequence of `tonemapFrame` calls, and leaves the state (mutex,
options, frames, trace) as it is. -/
theorem getType_returns_fattal {σ R : Type} (pfstmo : PfstmoArgs R → World σ R → Completion σ)
    (self : TonemapOperatorFattal02) (calls : List TonemapCall) (w : World σ R) :
    self.getType w = (TMOperator.fattal, w) ∧
    self.getType (runCalls pfstmo calls w) = (TMOperator.fattal, runCalls pfstmo calls w) :=
  ⟨rfl, rfl⟩

/-- C10 (counterexample): in the state left by a call in which `pfstmo_fattal02` threw,
`m_Mutex` is locked, and a call of `tonemapFrame` there does not get past `m_Mutex.lock()`:
it invokes `pfstmo_fattal02` zero times (the recording body notes no new invocation, and
the call adds no event). -/
theorem tonemapFrame_on_locked_mutex_calls_nothing :
    worldAfterThrow.m_Mutex = true ∧
    (TonemapOperatorFattal02.tonemapFrame pfstmoReturns { addr := 2 } 8 0
      worldAfterThrow).1 = Outcome.blocked ∧
    (TonemapOperatorFattal02.tonemapFrame pfstmoReturns { addr := 2 } 8 0
      worldAfterThrow).2.ext = worldAfterThrow.ext ∧
    pfstmoCalls (eventsSince worldAfterThrow
      (TonemapOperatorFattal02.tonemapFrame pfstmoReturns { addr := 2 } 8 0
        worldAfterThrow)) = [] :=
  ⟨rfl, rfl, rfl, rfl⟩

/-- C10 (amended): a call `tonemapFrame(f, opts)` that finds `m_Mutex` free invokes
`pfstmo_fattal02` exactly once: the outcome and the external state of the call are those of
the one application of `pfstmo_fattal02` to the frame pointer `f` itself, to alpha, beta,
color, noiseredux and newfattal equal to the fields of `opts->operator_options.fattaloptions`
in this order, and to a null progress argument, in the state in which the mutex is held;
the trace of the call holds exactly this one invocation; and `tonemapFrame` leaves every
options record as it was. -/
theorem tonemapFrame_calls_pfstmo_once {σ R : Type}
    (pfstmo : PfstmoArgs R → World σ R → Completion σ)
    (self : TonemapOperatorFattal02) (f : FramePtr) (opts : OptsPtr) (w : World σ R)
    (hfree : w.m_Mutex = false) :
    ((self.tonemapFrame pfstmo f opts w).1, (self.tonemapFrame pfstmo f opts w).2.ext) =
      (match pfstmo
          { frame := f
            alpha := (w.options opts).operator_options.fattaloptions.alpha
            beta := (w.options opts).operator_options.fattaloptions.beta
            color := (w.options opts).operator_options.fattaloptions.color
            noiseredux := (w.options opts).operator_options.fattaloptions.noiseredux
            newfattal := (w.options opts).operator_options.fattaloptions.newfattal
            ph := none }
          (stateInBody f opts w) with
        | Completion.normal s => (Outcome.returned, s)
        | Completion.thrown e s => (Outcome.escaped e, s)) ∧
    pfstmoCalls (eventsSince w (self.tonemapFrame pfstmo f opts w)) =
      [{ frame := f
         alpha := (w.options opts).operator_options.fattaloptions.alpha
         beta := (w.options opts).operator_options.fattaloptions.beta
         color := (w.options opts).operator_options.fattaloptions.color
         noiseredux := (w.options opts).operator_options.fattaloptions.noiseredux
         newfattal := (w.options opts).operator_options.fattaloptions.newfattal
         ph := none }] ∧
    (self.tonemapFrame pfstmo f opts w).2.options = w.options := by
  rw [tonemapFrame_unfold pfstmo self f opts w hfree]
  have hargs : fattalArgs f (w.options opts) =
      { frame := f
        alpha := (w.options opts).operator_options.fattaloptions.alpha
        beta := (w.options opts).operator_options.fattaloptions.beta
        color := (w.options opts).operator_options.fattaloptions.color
        noiseredux := (w.options opts).operator_options.fattaloptions.noiseredux
        newfattal := (w.options opts).operator_options.fattaloptions.newfattal
        ph := none } := rfl
  rw [← hargs]
  cases hp : pfstmo (fattalArgs f (w.options opts)) (stateInBody f opts w) <;>
    simp [eventsSince, pfstmoCalls]

/-- A sample call on a free mutex with the sample options record and the recording body:
exactly one invocation is recorded, with frame 7, alpha 1, beta 2, color 3, noiseredux 4,
newfattal set, a null progress argument, and the mutex locked. -/
theorem tonemapFrame_calls_pfstmo_once_witness :
    sampleWorld.m_Mutex = false ∧
    (sampleOp.tonemapFrame pfstmoReturns 7 0 sampleWorld).2.ext =
      [({ frame := 7, alpha := 1, beta := 2, color := 3, noiseredux := 4, newfattal := true,
          ph := none }, true)] ∧
    (((sampleOp.tonemapFrame pfstmoReturns 7 0 sampleWorld).1,
        (sampleOp.tonemapFrame pfstmoReturns 7 0 sampleWorld).2.ext) =
      (match pfstmoReturns
          { frame := 7
            alpha := (sampleWorld.options 0).operator_options.fattaloptions.alpha
            beta := (sampleWorld.options 0).operator_options.fattaloptions.beta
            color := (sampleWorld.options 0).operator_options.fattaloptions.color
            noiseredux := (sampleWorld.options 0).operator_options.fattaloptions.noiseredux
            newfattal := (sampleWorld.options 0).operator_options.fattaloptions.newfattal
            ph := none }
          (stateInBody 7 0 sampleWorld) with
        | Completion.normal s => (Outcome.returned, s)
        | Completion.thrown e s => (Outcome.escaped e, s)) ∧
    pfstmoCalls (eventsSince sampleWorld (sampleOp.tonemapFrame pfstmoReturns 7 0 sampleWorld)) =
      [{ frame := 7
         alpha := (sampleWorld.options 0).operator_options.fattaloptions.alpha
         beta := (sampleWorld.options 0).operator_options.fattaloptions.beta
         color := (sampleWorld.options 0).operator_options.fattaloptions.color
         noiseredux := (sampleWorld.options 0).operator_options.fattaloptions.noiseredux
         newfattal := (sampleWorld.options 0).operator_options.fattaloptions.newfattal
         ph := none }] ∧
    (sampleOp.tonemapFrame pfstmoReturns 7 0 sampleWorld).2.options = sampleWorld.options) :=
  ⟨rfl, rfl,
    tonemapFrame_calls_pfstmo_once pfstmoReturns sampleOp 7 0 sampleWorld rfl⟩

/-! ## Theorems: concurrent calls of `tonemapFrame` -/

theorem Conc.setPC_pc (s : Conc) (t : Tid) (p : PC) (u : Tid) :
    (s.setPC t p).pc u = if u = t then p else s.pc u := rfl

theorem Conc.setPC_mutex (s : Conc) (t : Tid) (p : PC) :
    (s.setPC t p).m_Mutex = s.m_Mutex := rfl

theorem Conc.inv_init : Conc.init.Inv := by
  constructor
  · intro t u ht
    simp [Conc.init, PC.holds] at ht
  · intro _ t
    simp [Conc.init, PC.holds]

/-- Moving a thread that is outside the critical region to a position outside the critical
region keeps the invariant. -/
theorem Conc.inv_setPC_outside (s : Conc) (t : Tid) (p : PC) (h : s.Inv)
    (hp : p.holds = false) : (s.setPC t p).Inv := by
  obtain ⟨h1, h2⟩ := h
  constructor
  · intro x y hx hy
    rw [Conc.setPC_pc] at hx hy
    by_cases hxt : x = t
    · simp [hxt, hp] at hx
    · by_cases hyt : y = t
      · simp [hyt, hp] at hy
      · simp only [hxt, hyt, if_false] at hx hy
        exact h1 x y hx hy
  · intro hm x
    rw [Conc.setPC_pc]
    by_cases hxt : x = t
    · simp [hxt, hp]
    · simp only [hxt, if_false]
      exact h2 hm x

theorem Conc.inv_step (s : Conc) (a : Action) (h : s.Inv) : (s.step a).Inv := by
  cases a with
  | call t self f =>
    simp only [Conc.step]
    split
    · exact Conc.inv_setPC_outside s t PC.atLock h rfl
    · exact h
  | lock t =>
    simp only [Conc.step]
    split
    · rename_i hc
      obtain ⟨_, hm⟩ := hc
      obtain ⟨_, h2⟩ := h
      constructor
      · intro x y hx hy
        by_cases hxt : x = t
        · by_cases hyt : y = t
          · rw [hxt, hyt]
          · have hy2 : (s.pc y).holds = true := by simpa [Conc.setPC, hyt] using hy
            rw [h2 hm y] at hy2
            exact absurd hy2 (by decide)
        · have hx2 : (s.pc x).holds = true := by simpa [Conc.setPC, hxt] using hx
          rw [h2 hm x] at hx2
          exact absurd hx2 (by decide)
      · intro hf
        simp at hf
    · exact h
  | bodyReturns t =>
    simp only [Conc.step]
    split
    · rename_i hc
      obtain ⟨h1, h2⟩ := h
      have ht : (s.pc t).holds = true := by rw [hc]; rfl
      constructor
      · intro x y hx hy
        rw [Conc.setPC_pc] at hx hy
        have hx2 : x = t := by
          by_cases hxt : x = t
          · exact hxt
          · simp only [hxt, if_false] at hx
            exact h1 x t hx ht
        have hy2 : y = t := by
          by_cases hyt : y = t
          · exact hyt
          · simp only [hyt, if_false] at hy
            exact h1 y t hy ht
        rw [hx2, hy2]
      · intro hm
        rw [Conc.setPC_mutex] at hm
        rw [h2 hm t] at ht
        exact absurd ht (by decide)
    · exact h
  | bodyThrows t =>
    simp only [Conc.step]
    split
    · exact Conc.inv_setPC_outside s t PC.idle h rfl
    · exact h
  | unlock t =>
    simp only [Conc.step]
    split
    · rename_i hc
      obtain ⟨h1, _⟩ := h
      have ht : (s.pc t).holds = true := by rw [hc]; rfl
      have hall : ∀ x, ((s.setPC t PC.idle).pc x).holds = false := by
        intro x
        rw [Conc.setPC_pc]
        by_cases hxt : x = t
        · simp [hxt, PC.holds]
        · simp only [hxt, if_false]
          cases hx : (s.pc x).holds with
          | false => rfl
          | true => exact absurd (h1 x t hx ht) hxt
      constructor
      · intro x y hx _
        have := hall x
        simp only [] at hx
        rw [this] at hx
        exact absurd hx (by decide)
      · intro _ x
        exact hall x
    · exact h

theorem Conc.inv_run (acts : List Action) (s : Conc) (h : s.Inv) : (s.run acts).Inv := by
  induction acts generalizing s with
  | nil => exact h
  | cons a as ih => exact ih (s.step a) (Conc.inv_step s a h)

/-- C1: under every schedule of atomic steps of any number of threads, started from the
state in which the mutex is free and no call is in progress, two threads that are both
inside `pfstmo_fattal02` are the same thread: the executions of the body by two concurrent
calls never overlap.  While a thread is inside the body the mutex is locked.  The calls may be on the same or on different operator instances and
frames, since the mutex is static. -/
theorem tonemapFrame_bodies_do_not_overlap (acts : List Action) (t u : Tid)
    (ht : (Conc.init.run acts).pc t = PC.inBody)
    (hu : (Conc.init.run acts).pc u = PC.inBody) :
    t = u ∧ (Conc.init.run acts).m_Mutex = true := by
  have hinv := Conc.inv_run acts Conc.init Conc.inv_init
  refine ⟨hinv.1 t u (by rw [ht]; rfl) (by rw [hu]; rfl), ?_⟩
  cases hm : (Conc.init.run acts).m_Mutex with
  | true => rfl
  | false =>
    have := hinv.2 hm t
    rw [ht] at this
    exact absurd this (by decide)

/-- A sample schedule after which thread 1 is inside the body. -/
theorem tonemapFrame_bodies_do_not_overlap_witness :
    (Conc.init.run sampleSchedule).pc 1 = PC.inBody ∧
    (Conc.init.run sampleSchedule).pc 1 = PC.inBody ∧
    ((1 : Tid) = 1 ∧ (Conc.init.run sampleSchedule).m_Mutex = true) :=
  ⟨rfl, rfl, tonemapFrame_bodies_do_not_overlap sampleSchedule 1 1 rfl rfl⟩

/-! ## Theorems: the Frame model -/

namespace pfs

/-! ### Lookup after binding -/

theorem FrameImpl.getChannel_eq_none (F : FrameImpl) (n : String)
    (h : F.getChannel n = none) : F.channel.find? (fun e => decide (e.1 = n)) = none := by
  simpa [FrameImpl.getChannel] using h

theorem FrameImpl.getChannel_eq_some (F : FrameImpl) (n : String) (ch : Channel)
    (hg : F.getChannel n = some ch) :
    ∃ e, F.channel.find? (fun e => decide (e.1 = n)) = some e ∧ e.2 = ch := by
  unfold FrameImpl.getChannel at hg
  cases hf : F.channel.find? (fun e => decide (e.1 = n)) with
  | none => rw [hf] at hg; exact absurd hg (by simp)
  | some e =>
    rw [hf] at hg
    exact ⟨e, rfl, by simpa using hg⟩

/-- A name that was not bound is bound to the new channel after `bindNew`. -/
theorem FrameImpl.getChannel_bindNew_of_none (F : FrameImpl) (n : String)
    (h : F.getChannel n = none) : (F.bindNew n).2.getChannel n = some (F.bindNew n).1 := by
  have h2 := FrameImpl.getChannel_eq_none F n h
  simp [FrameImpl.bindNew, FrameImpl.getChannel, List.find?_append, h2]

/-- An existing binding survives `bindNew`. -/
theorem FrameImpl.getChannel_bindNew_of_some (F : FrameImpl) (m n : String) (ch : Channel)
    (hg : F.getChannel n = some ch) : (F.bindNew m).2.getChannel n = some ch := by
  obtain ⟨e, he, hsnd⟩ := FrameImpl.getChannel_eq_some F n ch hg
  simp [FrameImpl.bindNew, FrameImpl.getChannel, List.find?_append, he, hsnd]

/-- An existing binding survives `bindIfAbsent`. -/
theorem FrameImpl.getChannel_bindIfAbsent_of_some (F : FrameImpl) (m n : String)
    (ch : Channel) (hg : F.getChannel n = some ch) :
    (F.bindIfAbsent m).getChannel n = some ch := by
  unfold FrameImpl.bindIfAbsent
  cases hm : F.getChannel m with
  | some c => exact hg
  | none => exact FrameImpl.getChannel_bindNew_of_some F m n ch hg

/-- After `createChannel n` the name `n` is bound to the returned channel. -/
theorem FrameImpl.getChannel_createChannel (F : FrameImpl) (n : String) :
    (F.createChannel n).2.getChannel n = some (F.createChannel n).1 := by
  unfold FrameImpl.createChannel
  cases h : F.getChannel n with
  | some ch => simpa using h
  | none =>
    have h1 := FrameImpl.getChannel_bindNew_of_none F n h
    by_cases hx : isXYZ n = true
    · simp only [hx, if_true]
      exact FrameImpl.getChannel_bindIfAbsent_of_some _ "Z" n _
        (FrameImpl.getChannel_bindIfAbsent_of_some _ "Y" n _
          (FrameImpl.getChannel_bindIfAbsent_of_some _ "X" n _ h1))
    · simp only [hx]
      exact h1

/-- Creating a channel that is already bound returns it and changes nothing. -/
theorem FrameImpl.createChannel_of_bound (F : FrameImpl) (n : String) (ch : Channel)
    (h : F.getChannel n = some ch) : F.createChannel n = (ch, F) := by
  simp [FrameImpl.createChannel, h]

/-- C5: `createChannel(n)` called twice on a frame returns the same channel both times, the
second call leaves the frame (its channels included) as the first call left it, and
`getChannel(n)` afterwards returns that same channel, not NULL. -/
theorem createChannel_twice_same_channel (F : FrameImpl) (n : String) :
    ((F.createChannel n).2.createChannel n).1 = (F.createChannel n).1 ∧
    ((F.createChannel n).2.createChannel n).2 = (F.createChannel n).2 ∧
    ((F.createChannel n).2.createChannel n).2.getChannel n = some (F.createChannel n).1 := by
  have h := FrameImpl.getChannel_createChannel F n
  rw [FrameImpl.createChannel_of_bound _ n _ h]
  exact ⟨rfl, rfl, h⟩

/-! ### Size invariant -/

theorem FrameImpl.sizeOK_new (W H : Int) : (FrameImpl.new W H).SizeOK W H := by
  refine ⟨rfl, rfl, ?_⟩
  intro e he
  simp [FrameImpl.new] at he

theorem FrameImpl.sizeOK_bindNew (W H : Int) (F : FrameImpl) (n : String)
    (h : F.SizeOK W H) : (F.bindNew n).2.SizeOK W H := by
  obtain ⟨hw, hh, hc⟩ := h
  refine ⟨hw, hh, ?_⟩
  intro e he
  simp only [FrameImpl.bindNew, List.mem_append, List.mem_singleton] at he
  rcases he with he | he
  · exact hc e he
  · subst he
    exact ⟨hw, hh⟩

theorem FrameImpl.sizeOK_bindIfAbsent (W H : Int) (F : FrameImpl) (n : String)
    (h : F.SizeOK W H) : (F.bindIfAbsent n).SizeOK W H := by
  unfold FrameImpl.bindIfAbsent
  cases hg : F.getChannel n with
  | some ch => exact h
  | none => exact FrameImpl.sizeOK_bindNew W H F n h

theorem FrameImpl.sizeOK_createChannel (W H : Int) (F : FrameImpl) (n : String)
    (h : F.SizeOK W H) : (F.createChannel n).2.SizeOK W H := by
  unfold FrameImpl.createChannel
  cases hg : F.getChannel n with
  | some ch => exact h
  | none =>
    have h1 := FrameImpl.sizeOK_bindNew W H F n h
    by_cases hx : isXYZ n = true
    · simp only [hx, if_true]
      exact FrameImpl.sizeOK_bindIfAbsent W H _ "Z"
        (FrameImpl.sizeOK_bindIfAbsent W H _ "Y" (FrameImpl.sizeOK_bindIfAbsent W H _ "X" h1))
    · simp only [hx]
      exact h1

theorem FrameImpl.sizeOK_filter (W H : Int) (F : FrameImpl) (q : String × Channel → Bool)
    (h : F.SizeOK W H) : FrameImpl.SizeOK W H { F with channel := F.channel.filter q } := by
  obtain ⟨hw, hh, hc⟩ := h
  refine ⟨hw, hh, ?_⟩
  intro e he
  exact hc e (List.mem_of_mem_filter he)

theorem FrameImpl.sizeOK_apply (p : XYZPolicy) (W H : Int) (F : FrameImpl) (op : FrameOp)
    (h : F.SizeOK W H) : (F.apply p op).SizeOK W H := by
  cases op with
  | createChannel n => exact FrameImpl.sizeOK_createChannel W H F n h
  | createXYZChannels =>
    exact FrameImpl.sizeOK_createChannel W H _ "Z"
      (FrameImpl.sizeOK_createChannel W H _ "Y" (FrameImpl.sizeOK_createChannel W H F "X" h))
  | removeChannel ch =>
    simp only [FrameImpl.apply, FrameImpl.removeChannel]
    split_ifs
    · cases p
      · exact FrameImpl.sizeOK_filter W H F _ h
      · exact h
    · exact FrameImpl.sizeOK_filter W H F _ h
    · exact h

theorem FrameImpl.sizeOK_run (p : XYZPolicy) (W H : Int) (ops : List FrameOp) (F : FrameImpl)
    (h : F.SizeOK W H) : (F.run p ops).SizeOK W H := by
  induction ops generalizing F with
  | nil => exact h
  | cons op ops ih => exact ih (F.apply p op) (FrameImpl.sizeOK_apply p W H F op h)

/-- C7: for a frame constructed with width `W` and height `H` and every sequence of
`createChannel`, `createXYZChannels` and `removeChannel` (under either removal policy),
`getWidth()` and `getHeight()` still return `W` and `H`, and every channel contained in the
frame has width `W` and height `H`. -/
theorem channel_size_invariant (p : XYZPolicy) (W H : Int) (ops : List FrameOp) :
    ((FrameImpl.new W H).run p ops).getWidth = W ∧
    ((FrameImpl.new W H).run p ops).getHeight = H ∧
    ∀ e ∈ ((FrameImpl.new W H).run p ops).channel, e.2.width = W ∧ e.2.height = H :=
  FrameImpl.sizeOK_run p W H ops (FrameImpl.new W H) (FrameImpl.sizeOK_new W H)

/-! ### The colour triple -/

/-- On a new 4×3 frame, `createChannel("X")` binds the whole triple, under either removal
policy; after `createXYZChannels` and the removal of X under the removing policy none of the
three is bound. -/
theorem createChannel_X_binds_triple :
    ((FrameImpl.new 4 3).run XYZPolicy.removeTriple [FrameOp.createChannel "X"]).xyzCount = 3 ∧
    ((FrameImpl.new 4 3).run XYZPolicy.failOperation [FrameOp.createChannel "X"]).xyzCount = 3 ∧
    ((FrameImpl.new 4 3).run XYZPolicy.removeTriple
      [FrameOp.createChannel "DEPTH", FrameOp.createXYZChannels,
        FrameOp.removeChannel { addr := 1, name := "X", width := 4, height := 3 }]).xyzCount = 0 ∧
    ((FrameImpl.new 4 3).run XYZPolicy.removeTriple
      [FrameOp.createChannel "DEPTH", FrameOp.createXYZChannels,
        FrameOp.removeChannel { addr := 1, name := "X", width := 4, height := 3 }]).bound
          "DEPTH" = true := by
  decide

end pfs

/-! ## Theorems: the signals of the I/O worker -/

/-- C8 (counterexample): `write_hdr_failed` and `write_ldr_failed` are failure events
declared without any parameter, so they carry no reason. -/
theorem write_failed_signals_carry_no_reason :
    ({ name := "write_hdr_failed", params := [] } : SignalDecl) ∈ IOWorker.signals ∧
    ({ name := "write_ldr_failed", params := [] } : SignalDecl) ∈ IOWorker.signals ∧
    ¬ (∀ d ∈ IOWorker.signals, d.isFailure = true → d.carriesString = true) := by
  decide

/-- C8 (amended): every success event of the I/O worker (`read_hdr_success`, both
`write_hdr_success` overloads, `write_ldr_success`) carries a frame or view reference
followed by a string (the path); of the failure events, `read_hdr_failed` carries a string
(the reason), while `write_hdr_failed` and `write_ldr_failed` carry nothing. -/
theorem io_signal_payloads :
    (∀ d ∈ IOWorker.signals, d.isSuccess = true →
      d.carriesFrameOrView = true ∧ d.carriesString = true ∧ d.params.length = 2) ∧
    (∀ d ∈ IOWorker.signals, d.name = "read_hdr_failed" → d.params = [ParamType.QString]) ∧
    (∀ d ∈ IOWorker.signals, d.name = "write_hdr_failed" ∨ d.name = "write_ldr_failed" →
      d.params = []) ∧
    (IOWorker.signals.filter SignalDecl.isSuccess).length = 4 ∧
    (IOWorker.signals.filter SignalDecl.isFailure).length = 3 := by
  decide

end LuminanceHDR
